import Mathlib

/-!
Verification development for the whatsapp-cli terminal client.

The definitions below are shallow embeddings of the JavaScript source:

* `Msg`, `loadMessagesSorted`, `getChatMessages` embed
  `WhatsAppClient.getChatMessages` (sort by timestamp descending, take the
  20 most recent, reverse into chronological order).
* `UIState`, `uiStep`, `uiRun` embed the chat-selection / message-refresh
  event flow of `ChatHandler._handleChatSelection` and
  `MessageHandler._refreshMessages`.
* `sendMessage`, `sendFromInput` embed `WhatsAppClient.sendMessage` and
  `ShortcutHandler._sendMessage`.
* `parseCommand` embeds `AIHandler.parseCommand`.
* `cleanResponse` embeds `AIHandler.cleanResponse` (each JavaScript regex
  replacement is translated into a character-list scanner).
* `assembleContext` embeds the context-assembly block of
  `MessageHandler._handlePromptCommand`.
* `handlePromptSendPhase` embeds the record/send/status-update part of
  `MessageHandler._handlePromptCommand` together with
  `AIHandler.processMessage`'s interaction logging.
* `runDraftPipeline` embeds the template lookup / placeholder substitution
  of `AIHandler.processMessage` and the send gating of
  `MessageHandler._handlePromptCommand`.
* `refreshMessages` embeds `MessageHandler._refreshMessages`'s error path.
* `armNumberHandler` / `armSearchHandler` embed
  `ShortcutHandler._handleNumberInput` and the search capture of
  `ShortcutHandler._setupPromptModeShortcuts`.

Strings are processed on `List Char` (`String.data`) so that every
definition evaluates by kernel reduction on concrete inputs.
-/

/-- A chat message as used by the client: unix timestamp (seconds),
message body, and whether it was sent by the user (`fromMe`). -/
structure Msg where
  timestamp : Nat
  body : String
  fromMe : Bool
  deriving DecidableEq, Repr

/-- Descending-timestamp comparison used by
`messages.sort((a, b) => b.timestamp - a.timestamp)`. -/
def tsDesc (a b : Msg) : Prop := b.timestamp ≤ a.timestamp

instance : DecidableRel tsDesc := fun a b => Nat.decLe b.timestamp a.timestamp

instance : IsTotal Msg tsDesc := ⟨fun a b => Nat.le_total b.timestamp a.timestamp⟩

instance : IsTrans Msg tsDesc := ⟨fun _ _ _ h h' => Nat.le_trans h' h⟩

/-- Embeds `WhatsAppClient.getChatMessages` on an already-fetched message
array, with the slice bound as a parameter: the JavaScript sorts the fetched
messages newest-first (a stable sort, modelled by insertion sort), slices the
first `limit`, then reverses into chronological order. -/
def loadMessagesSorted (limit : Nat) (fetched : List Msg) : List Msg :=
  ((List.insertionSort tsDesc fetched).take limit).reverse

/-- `WhatsAppClient.getChatMessages` instantiates the slice bound at 20
(`messages.sort((a,b) => b.timestamp - a.timestamp).slice(0, 20).reverse()`). -/
def getChatMessages (fetched : List Msg) : List Msg :=
  loadMessagesSorted 20 fetched

/- ## Chat selection and asynchronous message loading (C1) -/

/-- What the message surface currently shows. -/
inductive MsgDisplay where
  | blank : MsgDisplay
  | loading : MsgDisplay
  | messages (chatId : Nat) : MsgDisplay
  deriving DecidableEq, Repr

/-- State of the selection/refresh flow: `lastIssued` is
`ChatHandler.selectedChat` (the most recently issued selection),
`clientSelected` is `WhatsAppClient.selectedChat`, `pending` holds the chat
ids of in-flight `getChatMessages` calls in issue order, and `display` is the
message surface. -/
structure UIState where
  lastIssued : Option Nat
  clientSelected : Option Nat
  pending : List Nat
  display : MsgDisplay
  deriving DecidableEq, Repr

/-- Events of the selection flow: the user selects chat `chatId`
(`ChatHandler._handleChatSelection` followed by the synchronous part of
`MessageHandler._refreshMessages`), or the `k`-th in-flight load resolves
(the continuation of `_refreshMessages` after `await getChatMessages`). -/
inductive UIEvent where
  | select (chatId : Nat) : UIEvent
  | resolve (k : Nat) : UIEvent
  deriving DecidableEq, Repr

/-- One step of the selection/refresh flow.

`select i`: `_handleChatSelection` stores the selection in both handler and
client, shows the loading notice, and `_refreshMessages` issues a fetch for
the currently selected chat (which is `i` at issue time).

`resolve k`: the awaited fetch returns; `_refreshMessages` unconditionally
displays the fetched messages (`_displayMessages(messages)`) and re-runs
`setSelectedChat(selectedChat)` with the chat captured at issue time — there
is no check that the load still matches the current selection. -/
def uiStep (st : UIState) : UIEvent → UIState
  | .select i =>
      { lastIssued := some i
        clientSelected := some i
        pending := st.pending ++ [i]
        display := .loading }
  | .resolve k =>
      match st.pending[k]? with
      | some c =>
          { st with
            pending := st.pending.eraseIdx k
            display := .messages c
            clientSelected := some c }
      | none => st

/-- Initial state: no selection, nothing in flight, blank surface. -/
def uiInit : UIState := ⟨none, none, [], .blank⟩

/-- Run a sequence of selection/resolution events from the initial state. -/
def uiRun (evs : List UIEvent) : UIState := evs.foldl uiStep uiInit

/- ## Sending messages (C3) -/

/-- The only send-path error the client raises:
`throw new Error('No chat selected')`. -/
inductive SendError where
  | noChatSelected : SendError
  deriving DecidableEq, Repr

/-- JavaScript `\s`-style whitespace, as used by `String.prototype.trim`. -/
def isJsWhitespace (c : Char) : Bool :=
  c = ' ' ∨ c = '\t' ∨ c = '\n' ∨ c = '\r' ∨ c = Char.ofNat 11 ∨ c = Char.ofNat 12

/-- `text.trim()` on a character list. -/
def jsTrimList (s : List Char) : List Char :=
  ((s.dropWhile isJsWhitespace).reverse.dropWhile isJsWhitespace).reverse

/-- `text.trim()`. -/
def jsTrim (s : String) : String := String.mk (jsTrimList s.data)

/-- Embeds `WhatsAppClient.sendMessage`: throws `Error('No chat selected')`
when no chat is selected, otherwise delegates the text unchanged to
`client.sendMessage` (there is no emptiness check at this layer). -/
def sendMessage (selectedChat : Option Nat) (message : String) :
    Except SendError String :=
  match selectedChat with
  | none => .error .noChatSelected
  | some _ => .ok message

/-- Embeds `ShortcutHandler._sendMessage`: the input-box value is emitted as
a `send-message` event only when it is truthy and trims to a non-empty
string; otherwise nothing is emitted. -/
def sendFromInput (inputValue : String) : Option String :=
  if jsTrim inputValue = "" then none else some inputValue

/- ## Sorting lemmas for the message loader -/

/-- The descending sort is a permutation of its input. -/
theorem loadMessagesSorted_perm_parts (limit : Nat) (fetched : List Msg) :
    fetched.Perm
      (loadMessagesSorted limit fetched ++
        (List.insertionSort tsDesc fetched).drop limit) := by
  have hsort := (List.perm_insertionSort tsDesc fetched).symm
  have hsplit :
      (List.insertionSort tsDesc fetched).take limit ++
        (List.insertionSort tsDesc fetched).drop limit =
        List.insertionSort tsDesc fetched :=
    List.take_append_drop limit (List.insertionSort tsDesc fetched)
  have hrev :
      (loadMessagesSorted limit fetched ++
          (List.insertionSort tsDesc fetched).drop limit).Perm
        ((List.insertionSort tsDesc fetched).take limit ++
          (List.insertionSort tsDesc fetched).drop limit) :=
    List.Perm.append_right _ (List.reverse_perm _)
  calc fetched.Perm (List.insertionSort tsDesc fetched) := hsort
    _ = (List.insertionSort tsDesc fetched).take limit ++
          (List.insertionSort tsDesc fetched).drop limit := hsplit.symm
    _ |>.Perm _ := hrev.symm

/-- C2: for every slice bound and every fetched message sequence in any
order, the loader's output is sorted ascending by timestamp, its length
never exceeds the bound, and it consists of the most recent messages: the
input is a permutation of the output plus dropped messages that are all no
newer than anything displayed. -/
theorem c2_loadMessages_sorted (limit : Nat) (fetched : List Msg) :
    List.Pairwise (fun a b => a.timestamp ≤ b.timestamp)
        (loadMessagesSorted limit fetched)
    ∧ (loadMessagesSorted limit fetched).length ≤ limit
    ∧ ∃ dropped, fetched.Perm (loadMessagesSorted limit fetched ++ dropped)
        ∧ ∀ b ∈ dropped, ∀ a ∈ loadMessagesSorted limit fetched,
            b.timestamp ≤ a.timestamp := by
  have hsorted : List.Pairwise tsDesc (List.insertionSort tsDesc fetched) :=
    List.sorted_insertionSort tsDesc fetched
  have htake : List.Pairwise tsDesc
      ((List.insertionSort tsDesc fetched).take limit) :=
    List.Pairwise.sublist (List.take_sublist _ _) hsorted
  refine ⟨?_, ?_, ?_⟩
  · rw [loadMessagesSorted, List.pairwise_reverse]
    exact htake
  · rw [loadMessagesSorted, List.length_reverse, List.length_take]
    exact min_le_left _ _
  · refine ⟨(List.insertionSort tsDesc fetched).drop limit,
      loadMessagesSorted_perm_parts limit fetched, ?_⟩
    intro b hb a ha
    have hsplit :
        List.Pairwise tsDesc
          ((List.insertionSort tsDesc fetched).take limit ++
            (List.insertionSort tsDesc fetched).drop limit) := by
      rw [List.take_append_drop]
      exact hsorted
    have ha' : a ∈ (List.insertionSort tsDesc fetched).take limit := by
      rw [loadMessagesSorted] at ha
      exact List.mem_reverse.mp ha
    exact (List.pairwise_append.mp hsplit).2.2 a ha' b hb

/- ## C1: stale loads are displayed, last-issued-wins fails -/

/-- C1 counterexample: issue selections for chat 0 then chat 1; the load for
chat 1 resolves first and the stale load for chat 0 resolves last. The
display then shows chat 0's messages although the most recently issued
selection is chat 1 — the code never tags loads nor discards stale results. -/
theorem c1_stale_load_counterexample :
    (uiRun [.select 0, .select 1, .resolve 1, .resolve 0]).display =
        MsgDisplay.messages 0
    ∧ (uiRun [.select 0, .select 1, .resolve 1, .resolve 0]).lastIssued =
        some 1 := by
  decide

/-- C1 amended: resolution is last-resolved-wins, not last-issued-wins — a
message-load result is applied to the display unconditionally when it
resolves, whatever chat is currently selected, and the issued selection is
left untouched by the resolution. -/
theorem c1_resolve_overwrites_display (st : UIState) (k c : Nat)
    (h : st.pending[k]? = some c) :
    (uiStep st (.resolve k)).display = MsgDisplay.messages c
    ∧ (uiStep st (.resolve k)).lastIssued = st.lastIssued := by
  simp [uiStep, h]

/-- Witness for `c1_resolve_overwrites_display` at a concrete state in which
the pending load (chat 5) no longer matches the current selection (chat 9). -/
theorem c1_resolve_overwrites_display_witness :
    (uiStep ⟨some 9, some 9, [5], .loading⟩ (.resolve 0)).display =
        MsgDisplay.messages 5
    ∧ (uiStep ⟨some 9, some 9, [5], .loading⟩ (.resolve 0)).lastIssued =
        some 9 :=
  c1_resolve_overwrites_display ⟨some 9, some 9, [5], .loading⟩ 0 5 (by decide)

/- ## C3: send-path errors -/

/-- C3 counterexample: with a chat selected, sending the empty string does
not raise any error — `WhatsAppClient.sendMessage` has no emptiness check
and simply delegates, so no `EmptyMessageError` exists on this path. -/
theorem c3_send_empty_counterexample :
    sendMessage (some 0) "" = .ok "" := rfl

/-- C3 amended: send fails with the no-chat-selected error whenever no chat
is selected (for any text); with a chat selected it delegates the text
unchanged (raising no error, even for empty text); and text that trims to
empty is dropped by the input layer without emitting a send at all, which is
what leaves the message list unchanged. -/
theorem c3_send_errors (selectedChat : Option Nat) (text : String) :
    (selectedChat = none → sendMessage selectedChat text = .error .noChatSelected)
    ∧ (∀ c, selectedChat = some c → sendMessage selectedChat text = .ok text)
    ∧ (jsTrim text = "" → sendFromInput text = none) := by
  refine ⟨?_, ?_, ?_⟩
  · intro h; rw [h]; rfl
  · intro c h; rw [h]; rfl
  · intro h; rw [sendFromInput, h]; rfl

/-- Witness for `c3_send_errors`: `send "hi"` with no chat selected raises
the no-chat-selected error, and an all-blank input emits no send. -/
theorem c3_send_errors_witness :
    sendMessage none "hi" = .error .noChatSelected
    ∧ sendFromInput "  " = none :=
  ⟨(c3_send_errors none "hi").1 rfl,
   (c3_send_errors none "  ").2.2 (by decide)⟩

/- ## Character-list string helpers -/

/-- The double-quote character (written numerically to keep literals plain). -/
def dquote : Char := Char.ofNat 34

/-- The single-quote character. -/
def squote : Char := Char.ofNat 39

/-- The backtick character. -/
def backtick : Char := Char.ofNat 96

/-- `command.split(' ')`: split on every single space, keeping empty pieces. -/
def splitSpAux : List Char → List Char → List (List Char)
  | [], acc => [acc.reverse]
  | c :: rest, acc =>
      if c = ' ' then acc.reverse :: splitSpAux rest []
      else splitSpAux rest (c :: acc)

/-- `command.split(' ')` on a whole string. -/
def splitSp (s : List Char) : List (List Char) := splitSpAux s []

/-- The characters of `pat` lead `s` (JavaScript `String.prototype.startsWith`). -/
def listStartsWith : List Char → List Char → Bool
  | [], _ => true
  | _ :: _, [] => false
  | p :: ps, c :: cs => p = c ∧ listStartsWith ps cs

/-- JavaScript `String.prototype.includes`: `pat` occurs somewhere in `s`. -/
def containsSub (pat : List Char) : List Char → Bool
  | [] => listStartsWith pat []
  | c :: rest => listStartsWith pat (c :: rest) ∨ containsSub pat rest

/-- `body.startsWith(c)` for a single-character pattern. -/
def strStartsWithChar (s : String) (c : Char) : Bool :=
  match s.data with
  | [] => false
  | d :: _ => d = c

/- ## The AI command parser (C4) -/

/-- Result of `AIHandler.parseCommand`. -/
structure ParseOptions where
  content : String
  context : String
  model : String
  promptSlug : Option String
  deriving DecidableEq, Repr

/-- The handler's default model (`this.model = 'llama3.2'`). -/
def defaultModel : String := "llama3.2"

/-- The quoted-value loop of `parseCommand`: while there is a further token
and the collected value does not yet end with the opening quote, append a
space and the next token. Returns the collected value and the tokens that
remain after the consumed ones. -/
def collectQuoted (q : Char) (value : List Char) :
    List (List Char) → List Char × List (List Char)
  | [] => (value, [])
  | a :: rest =>
      if value.getLast? = some q then (value, a :: rest)
      else collectQuoted q (value ++ ' ' :: a) rest

/-- The `switch (currentFlag)` of `parseCommand`: `-ct` sets the content,
`-p` the prompt slug, `-m` the model; any other flag is ignored. -/
def applyFlag (flag value : List Char) (opts : ParseOptions) : ParseOptions :=
  if flag = "-ct".data then { opts with content := String.mk value }
  else if flag = "-p".data then { opts with promptSlug := some (String.mk value) }
  else if flag = "-m".data then { opts with model := String.mk value }
  else opts

/-- The token loop of `parseCommand`. A token starting with `-` becomes the
current flag; otherwise, if a flag is pending, the token is its value (a
leading quote starts the quoted-value loop, and the closing quote is removed
with `slice(0, -1)`); with no flag pending the token is skipped. `fuel`
bounds the loop exactly as the index bound `i < args.length` does: every
iteration consumes at least one token, so `args.length` steps suffice. -/
def parseArgs : Nat → List (List Char) → Option (List Char) → ParseOptions →
    ParseOptions
  | 0, _, _, opts => opts
  | _ + 1, [], _, opts => opts
  | fuel + 1, arg :: rest, currentFlag, opts =>
      match arg with
      | '-' :: _ => parseArgs fuel rest (some arg) opts
      | _ =>
          match currentFlag with
          | none => parseArgs fuel rest none opts
          | some f =>
              match arg with
              | q :: vrest =>
                  if q = dquote ∨ q = squote then
                    let collected := collectQuoted q vrest rest
                    parseArgs fuel collected.2 none
                      (applyFlag f collected.1.dropLast opts)
                  else parseArgs fuel rest none (applyFlag f arg opts)
              | [] => parseArgs fuel rest none (applyFlag f [] opts)

/-- Embeds `AIHandler.parseCommand`: split the command on single spaces and
run the flag/value loop over the tokens after the leading `/p`. -/
def parseCommand (command : String) : ParseOptions :=
  let args := splitSp command.data
  parseArgs args.length (args.drop 1) none
    { content := "", context := "", model := defaultModel, promptSlug := none }

/-- C4 counterexample: doubling the space between `-ct` and its quoted value
(a spacing variation outside quotes) makes the empty token be consumed as
the `-ct` value, so the content comes out empty instead of "hello world". -/
theorem c4_spacing_counterexample :
    (parseCommand "/p -ct  \"hello world\" -p formal").content = ""
    ∧ (parseCommand "/p -ct  \"hello world\" -p formal").promptSlug =
        some "formal" := by
  decide

/-- C4 amended: the canonical single-spaced command parses to content
"hello world" and slug "formal"; an extra space elsewhere (not between a
flag and its value) is tolerated; unknown flags are ignored together with
their value; and a missing `-ct` yields empty content rather than an error.
Spacing-insensitivity fails only immediately after a flag (see the
counterexample). -/
theorem c4_parseCommand_wellFormed :
    parseCommand "/p -ct \"hello world\" -p formal" =
      { content := "hello world", context := "", model := defaultModel,
        promptSlug := some "formal" }
    ∧ parseCommand "/p -ct \"hello world\"  -p formal" =
      { content := "hello world", context := "", model := defaultModel,
        promptSlug := some "formal" }
    ∧ parseCommand "/p -xx zzz -ct \"hello world\" -p formal" =
      { content := "hello world", context := "", model := defaultModel,
        promptSlug := some "formal" }
    ∧ parseCommand "/p -p formal" =
      { content := "", context := "", model := defaultModel,
        promptSlug := some "formal" } := by
  decide

/- ## The AI response sanitizer (C5) -/

/-- Helper for the tag regex `<[^>]*>`: from a position just after `<`,
find the first `>` and return what follows it, or `none` when the tag is
never closed (in which case the regex does not match there). -/
def dropThroughGt : List Char → Option (List Char)
  | [] => none
  | c :: rest => if c = '>' then some rest else dropThroughGt rest

/-- `response.replace(/<[^>]*>/g, '')`: left-to-right scan removing every
closed angle-bracket tag; an unclosed `<` is kept. `fuel` bounds the scan
by the input length. -/
def removeTags : Nat → List Char → List Char
  | 0, s => s
  | _ + 1, [] => []
  | fuel + 1, c :: rest =>
      if c = '<' then
        match dropThroughGt rest with
        | some rest2 => removeTags fuel rest2
        | none => c :: removeTags fuel rest
      else c :: removeTags fuel rest

/-- `[a-z]` under the `i` flag: an ASCII letter of either case. -/
def isAsciiLetter (c : Char) : Bool :=
  ('a' ≤ c ∧ c ≤ 'z') ∨ ('A' ≤ c ∧ c ≤ 'Z')

/-- `cleaned.replace(/^\/[a-z]+\s/i, '')`: remove a leading slash command —
a `/`, one or more letters, and one whitespace character — once, anchored
at the very start of the string. -/
def stripLeadingCmd (s : List Char) : List Char :=
  match s with
  | '/' :: rest =>
      match rest.dropWhile isAsciiLetter with
      | w :: tail =>
          if rest.takeWhile isAsciiLetter ≠ [] ∧ isJsWhitespace w then tail
          else s
      | [] => s
  | _ => s

/-- `cleaned.replace(/\s:q$/i, '')` (and the same for `:w`): remove a final
whitespace character, colon, and marker letter of either case, anchored at
the very end of the string. -/
def stripTrailing (markLower markUpper : Char) (s : List Char) : List Char :=
  match s.reverse with
  | c1 :: c2 :: w :: rest =>
      if (c1 = markLower ∨ c1 = markUpper) ∧ c2 = ':' ∧ isJsWhitespace w then
        rest.reverse
      else s
  | _ => s

/-- `[a-z]` without the `i` flag, as in the code-fence regex. -/
def isLowerLetter (c : Char) : Bool := 'a' ≤ c ∧ c ≤ 'z'

/-- `cleaned.replace(/```[a-z]*\n|```/g, '')`: at three backticks, first try
to also consume a run of lowercase letters followed by a newline; otherwise
consume just the three backticks. -/
def removeFences : Nat → List Char → List Char
  | 0, s => s
  | _ + 1, [] => []
  | fuel + 1, c :: rest =>
      if c = backtick then
        match rest with
        | c2 :: c3 :: rest2 =>
            if c2 = backtick ∧ c3 = backtick then
              match rest2.dropWhile isLowerLetter with
              | nl :: tail =>
                  if nl = '\n' then removeFences fuel tail
                  else removeFences fuel rest2
              | [] => removeFences fuel rest2
            else c :: removeFences fuel rest
        | _ => c :: removeFences fuel rest
      else c :: removeFences fuel rest

/-- Helper for `\*\*(.*?)\*\*` (and `__(.*?)__`): from a position just after
an opening double marker, lazily collect non-newline characters up to the
earliest closing double marker; `none` when a newline intervenes or no
closing marker exists. Returns the capture and the characters after the
closing marker. -/
def findCloseDouble (mark : Char) : List Char → Option (List Char × List Char)
  | [] => none
  | [_] => none
  | c :: c2 :: rest2 =>
      if c = mark ∧ c2 = mark then some ([], rest2)
      else if c = '\n' then none
      else
        match findCloseDouble mark (c2 :: rest2) with
        | some p => some (c :: p.1, p.2)
        | none => none

/-- `cleaned.replace(/\*\*(.*?)\*\*/g, '$1')` and
`cleaned.replace(/__(.*?)__/g, '$1')`: each matched pair of double markers
is replaced by its capture; an opening pair with no closing pair is kept
and the scan restarts one character later, exactly as the regex engine
advances its start position. -/
def removeDoubleMark (mark : Char) : Nat → List Char → List Char
  | 0, s => s
  | _ + 1, [] => []
  | fuel + 1, c :: rest =>
      match rest with
      | c2 :: rest2 =>
          if c = mark ∧ c2 = mark then
            match findCloseDouble mark rest2 with
            | some p => p.1 ++ removeDoubleMark mark fuel p.2
            | none => c :: removeDoubleMark mark fuel rest
          else c :: removeDoubleMark mark fuel rest
      | [] => [c]

/-- Helper for `\*(.*?)\*`: lazily collect non-newline characters up to the
earliest closing marker. -/
def findCloseSingle (mark : Char) : List Char → Option (List Char × List Char)
  | [] => none
  | c :: rest =>
      if c = mark then some ([], rest)
      else if c = '\n' then none
      else
        match findCloseSingle mark rest with
        | some p => some (c :: p.1, p.2)
        | none => none

/-- `cleaned.replace(/\*(.*?)\*/g, '$1')`: each matched pair of single
markers is replaced by its capture. -/
def removeSingleMark (mark : Char) : Nat → List Char → List Char
  | 0, s => s
  | _ + 1, [] => []
  | fuel + 1, c :: rest =>
      if c = mark then
        match findCloseSingle mark rest with
        | some p => p.1 ++ removeSingleMark mark fuel p.2
        | none => c :: removeSingleMark mark fuel rest
      else c :: removeSingleMark mark fuel rest

/-- Embeds `AIHandler.cleanResponse`: empty (falsy) input maps to the empty
string; otherwise remove tags, strip a leading slash command, strip trailing
`:q` and `:w`, remove code fences, bold, italic and underline markers, and
trim. The stages run in exactly the source order. -/
def cleanResponse (response : String) : String :=
  if response = "" then ""
  else
    let s1 := removeTags response.data.length response.data
    let s2 := stripLeadingCmd s1
    let s3 := stripTrailing 'q' 'Q' s2
    let s4 := stripTrailing 'w' 'W' s3
    let s5 := removeFences s4.length s4
    let s6 := removeDoubleMark '*' s5.length s5
    let s7 := removeSingleMark '*' s6.length s6
    let s8 := removeDoubleMark '_' s7.length s7
    String.mk (jsTrimList s8)

/-- C5 counterexample: sanitization is not idempotent. A leading space hides
the slash command from the anchored `^\/[a-z]+\s` pass, but the final trim
exposes it, so a second pass strips more: `cleanResponse " /a b"` is
`"/a b"`, while applying `cleanResponse` again yields `"b"`. -/
theorem c5_not_idempotent :
    cleanResponse (cleanResponse " /a b") ≠ cleanResponse " /a b" := by
  decide

/-- C5 amended: the claim's example does behave idempotently —
`**hi** <b>there</b>` sanitizes to `hi there`, and sanitizing that output
again leaves it unchanged — but idempotence fails in general (see the
counterexample, where command stripping and trimming interact). -/
theorem c5_example_idempotent :
    cleanResponse "**hi** <b>there</b>" = "hi there"
    ∧ cleanResponse (cleanResponse "**hi** <b>there</b>") = "hi there" := by
  decide

/- ## AI context assembly (C6) -/

/-- The sentinel phrase filtered out of the context
(`msg.body.includes('I cannot continue the chat history')`). -/
def sentinelPhrase : String := "I cannot continue the chat history"

/-- The `isSystemMessage` test of `MessageHandler._handlePromptCommand`:
the body starts with `/` or `:` or contains the sentinel phrase. -/
def isSystemMessage (m : Msg) : Bool :=
  strStartsWithChar m.body '/' ∨ strStartsWithChar m.body ':' ∨
    containsSub sentinelPhrase.data m.body.data

/-- `array.join(sep)` on a list of strings. -/
def joinWith (sep : String) : List String → String
  | [] => ""
  | [s] => s
  | s :: rest => s ++ sep ++ joinWith sep rest

/-- JavaScript `array.slice(-n)`: the last `n` elements (all of them when
the array is shorter). -/
def jsSliceLast (n : Nat) (l : List Msg) : List Msg := l.drop (l.length - n)

/-- The per-message formatting of the context:
`` `${sender} [${time}]\n ${msg.body}` `` with
`sender = msg.fromMe ? 'YOU' : (selectedChat.name || 'CONTACT')`.
The locale-dependent `toLocaleTimeString` is abstracted as `fmtTime`. -/
def formatContextEntry (chatName : String) (fmtTime : Nat → String)
    (m : Msg) : String :=
  (if m.fromMe then "YOU" else if chatName = "" then "CONTACT" else chatName)
    ++ " [" ++ fmtTime m.timestamp ++ "]\n " ++ m.body

/-- Embeds the context-assembly block of
`MessageHandler._handlePromptCommand`: slice the last 10 session messages,
filter out system-looking messages, format each, join with `'\n\n'`. -/
def assembleContext (chatName : String) (fmtTime : Nat → String)
    (currentMessages : List Msg) : String :=
  joinWith "\n\n"
    (((jsSliceLast 10 currentMessages).filter
        (fun m => !(isSystemMessage m))).map
      (formatContextEntry chatName fmtTime))

/-- Embeds the `if (options.promptSlug)` gate: context is assembled only
when the command carries a prompt slug, otherwise it stays empty. -/
def contextForCommand (promptSlug : Option String) (chatName : String)
    (fmtTime : Nat → String) (currentMessages : List Msg) : String :=
  match promptSlug with
  | some _ => assembleContext chatName fmtTime currentMessages
  | none => ""

/-- The last at most `n` elements, written as the spec reads (take from the
end): used as the specification-side description for C6. -/
def takeLastAtMost (n : Nat) (l : List Msg) : List Msg :=
  (l.reverse.take n).reverse

/-- Specification-side rendering of C6's claim: take the last at-most-10
session messages, drop every message whose body starts with `/` or `:` or
contains the sentinel phrase, format each as a sender-and-bracketed-time
line followed by the body on the next line, and join the entries with
blank-line separators. -/
def contextAssemblySpec (chatName : String) (fmtTime : Nat → String)
    (currentMessages : List Msg) : String :=
  joinWith "\n\n"
    (((takeLastAtMost 10 currentMessages).filter
        (fun m => !(strStartsWithChar m.body '/' ∨ strStartsWithChar m.body ':' ∨
            containsSub sentinelPhrase.data m.body.data))).map
      (formatContextEntry chatName fmtTime))

/-- `slice(-n)` takes exactly the last at-most-`n` elements. -/
theorem jsSliceLast_eq_takeLastAtMost (n : Nat) (l : List Msg) :
    jsSliceLast n l = takeLastAtMost n l := by
  rw [jsSliceLast, takeLastAtMost, List.take_reverse, List.reverse_reverse]

/-- C6: for every AI command carrying a prompt slug, the assembled context
is exactly the spec's description — the last at-most-10 session messages
with control-like messages dropped, each formatted as a sender/time line
followed by the body line, joined by blank lines — and at most 10 entries
ever contribute to it. -/
theorem c6_context_assembly (slug chatName : String) (fmtTime : Nat → String)
    (currentMessages : List Msg) :
    contextForCommand (some slug) chatName fmtTime currentMessages =
      contextAssemblySpec chatName fmtTime currentMessages
    ∧ (((takeLastAtMost 10 currentMessages).filter
          (fun m => !(isSystemMessage m))).map
        (formatContextEntry chatName fmtTime)).length ≤ 10 := by
  constructor
  · rw [contextForCommand, assembleContext, contextAssemblySpec,
      jsSliceLast_eq_takeLastAtMost]
    rfl
  · rw [List.length_map]
    calc ((takeLastAtMost 10 currentMessages).filter
          (fun m => !(isSystemMessage m))).length
        ≤ (takeLastAtMost 10 currentMessages).length :=
          List.length_filter_le _ _
      _ ≤ 10 := by
          rw [takeLastAtMost, List.length_reverse, List.length_take]
          exact min_le_left _ _

/- ## Interaction recording and send-status updates (C7) -/

/-- The metrics sink's view of `aiLogger`: ids of recorded interactions
(`logInteraction`) and the send-status updates applied to them
(`updateInteractionStatus`, as `(interactionId, messageSent)` pairs). -/
structure AiLog where
  interactions : List String
  statusUpdates : List (String × Bool)
  deriving DecidableEq, Repr

/-- The state `MessageHandler` threads across `_handlePromptCommand`
invocations: the metrics log plus `this.lastInteractionId`. -/
structure PromptCmdState where
  log : AiLog
  lastInteractionId : Option String
  deriving DecidableEq, Repr

/-- Embeds the record/send/status phase of a completed
`_handlePromptCommand` invocation. `AIHandler.processMessage` has logged the
new interaction under the fresh id `newId` and returned the response string.
The handler then attempts the send and, in both the success and the failure
branch, calls `updateInteractionStatus` on `this.lastInteractionId` — the id
left over from the previous invocation, not `newId`. Finally it executes
`this.lastInteractionId = response.interactionId`, and since `response` is a
string, that stores `undefined` (`none`). -/
def handlePromptSendPhase (st : PromptCmdState) (newId : String)
    (sendOk : Bool) : PromptCmdState :=
  let log1 : AiLog := { st.log with interactions := st.log.interactions ++ [newId] }
  let log2 : AiLog :=
    match st.lastInteractionId with
    | some oldId =>
        { log1 with statusUpdates := log1.statusUpdates ++ [(oldId, sendOk)] }
    | none => log1
  { log := log2, lastInteractionId := none }

/-- A freshly initialized handler: empty log, `lastInteractionId = null`. -/
def promptCmdInit : PromptCmdState := ⟨⟨[], []⟩, none⟩

/-- C7 at its failing input: the first completed AI draft invocation. The
interaction is recorded regardless of the send outcome (both `true` and
`false` runs record it), but no send-status update is ever applied — the
update targets the previous `lastInteractionId`, which is null — and the
stored last-interaction id ends up `undefined`, so the new interaction's
status can never transition afterwards either. -/
theorem c7_status_update_misses_new_interaction :
    (handlePromptSendPhase promptCmdInit "d1" true).log.interactions = ["d1"]
    ∧ (handlePromptSendPhase promptCmdInit "d1" true).log.statusUpdates = []
    ∧ (handlePromptSendPhase promptCmdInit "d1" true).lastInteractionId = none
    ∧ (handlePromptSendPhase promptCmdInit "d1" false).log.interactions = ["d1"]
    ∧ (handlePromptSendPhase promptCmdInit "d1" false).log.statusUpdates = []
    ∧ (handlePromptSendPhase promptCmdInit "d1" false).lastInteractionId = none := by
  decide

/- ## Template lookup and the draft pipeline (C8) -/

/-- `this.prompts.get(slug) || null` over the loaded prompt templates,
modelled as an association list from slug to template content. -/
def findPrompt : List (String × String) → String → Option String
  | [], _ => none
  | p :: rest, slug => if p.1 = slug then some p.2 else findPrompt rest slug

/-- JavaScript `str.replace(pattern, repl)` with a string pattern: replace
only the first occurrence, leaving the string unchanged when the pattern
does not occur. -/
def replaceFirst (pat repl : List Char) : List Char → List Char
  | [] => []
  | c :: rest =>
      if listStartsWith pat (c :: rest) then repl ++ (c :: rest).drop pat.length
      else c :: replaceFirst pat repl rest

/-- The error message thrown when a slug has no template:
`` `Prompt template "${slug}" not found. Available prompts: ${listPrompts().join(', ')}` ``. -/
def templateNotFoundMsg (slug : String) (prompts : List (String × String)) :
    String :=
  "Prompt template \"" ++ slug ++ "\" not found. Available prompts: " ++
    joinWith ", " (prompts.map Prod.fst)

/-- Embeds the prompt-construction step of `AIHandler.processMessage`: with
a slug, look the template up (throwing the not-found error when absent) and
substitute the first `{{CONTEXT}}` and `{{CONTENT}}` occurrences; without a
slug, fall back to the plain `Context:\n...\n\nContent:\n...` concatenation
(or the bare content when the context is empty/falsy). -/
def buildPrompt (prompts : List (String × String)) (promptSlug : Option String)
    (context content : String) : Except String String :=
  match promptSlug with
  | some slug =>
      match findPrompt prompts slug with
      | none => .error (templateNotFoundMsg slug prompts)
      | some tpl =>
          .ok (String.mk (replaceFirst "\x7b\x7bCONTENT\x7d\x7d".data content.data
            (replaceFirst "\x7b\x7bCONTEXT\x7d\x7d".data context.data tpl.data)))
  | none =>
      .ok (if context = "" then content
        else "Context:\n" ++ context ++ "\n\nContent:\n" ++ content)

/-- Outcome of one `_handlePromptCommand` pipeline instance: the completion
result (or the propagated error) and whether a send was attempted. -/
structure PipelineOutcome where
  result : Except String String
  sendAttempted : Bool

/-- Embeds the control flow of `_handlePromptCommand` around
`processMessage`: a throw from prompt construction jumps to the catch
clause, so the send inside the try block is never reached; on success the
pipeline goes on to send the (cleaned) response. -/
def runDraftPipeline (prompts : List (String × String))
    (promptSlug : Option String) (context content : String) : PipelineOutcome :=
  match buildPrompt prompts promptSlug context content with
  | .error e => { result := .error e, sendAttempted := false }
  | .ok finalPrompt => { result := .ok finalPrompt, sendAttempted := true }

/-- Appending on the left preserves contiguous containment. -/
theorem isInfix_append_left {l₁ l₂ : List Char} (l₀ : List Char)
    (h : l₁ <:+: l₂) : l₁ <:+: l₀ ++ l₂ := by
  obtain ⟨a, b, hab⟩ := h
  exact ⟨l₀ ++ a, b, by rw [← hab]; simp⟩

/-- Every string of the joined list occurs contiguously in the join. -/
theorem mem_joinWith_isInfix (sep : String) (l : List String) (s : String)
    (hs : s ∈ l) : s.data <:+: (joinWith sep l).data := by
  induction l with
  | nil => cases hs
  | cons x xs ih =>
      cases xs with
      | nil =>
          rcases List.mem_cons.mp hs with h | h
          · rw [h]
            exact ⟨[], [], by simp [joinWith]⟩
          · exact absurd h (List.not_mem_nil s)
      | cons y ys =>
          have hjoin : joinWith sep (x :: y :: ys) =
              x ++ sep ++ joinWith sep (y :: ys) := rfl
          rcases List.mem_cons.mp hs with h | h
          · subst h
            refine ⟨[], sep.data ++ (joinWith sep (y :: ys)).data, ?_⟩
            rw [hjoin]
            simp [String.data_append]
          · have hx := ih h
            rw [hjoin, String.data_append, String.data_append]
            rw [List.append_assoc]
            exact isInfix_append_left _ (isInfix_append_left _ hx)

/-- C8: for every prompt table and every slug not present in it, the
pipeline fails with the template-not-found error, whose message contains
every loaded slug (in particular `formal` whenever that template is
loaded), and no send is attempted. -/
theorem c8_template_not_found (prompts : List (String × String))
    (slug context content : String) (h : findPrompt prompts slug = none) :
    (runDraftPipeline prompts (some slug) context content).sendAttempted = false
    ∧ ∃ e, (runDraftPipeline prompts (some slug) context content).result =
          .error e
        ∧ ∀ s ∈ prompts.map Prod.fst, s.data <:+: e.data := by
  have hbuild : buildPrompt prompts (some slug) context content =
      .error (templateNotFoundMsg slug prompts) := by
    rw [buildPrompt, h]
  refine ⟨?_, templateNotFoundMsg slug prompts, ?_, ?_⟩
  · rw [runDraftPipeline, hbuild]
  · rw [runDraftPipeline, hbuild]
  · intro s hsmem
    rw [templateNotFoundMsg, String.data_append]
    exact isInfix_append_left _
      (mem_joinWith_isInfix ", " (prompts.map Prod.fst) s hsmem)

/-- Witness for `c8_template_not_found`: with only the `formal` template
loaded, the unknown slug `doesnotexist` yields the error outcome (no send,
message containing `formal`). -/
theorem c8_template_not_found_witness :
    (runDraftPipeline [("formal", "T")] (some "doesnotexist") "" "hi").sendAttempted
        = false
    ∧ ∃ e, (runDraftPipeline [("formal", "T")] (some "doesnotexist") "" "hi").result
          = .error e
        ∧ ∀ s ∈ [("formal", "T")].map Prod.fst, s.data <:+: e.data :=
  c8_template_not_found [("formal", "T")] "doesnotexist" "" "hi" (by decide)

/- ## Message refresh failure path (C9) -/

/-- What the message surface shows after a refresh: literal notice text, or
the rendering of a message list. -/
inductive SurfaceContent where
  | text (s : String) : SurfaceContent
  | rendered (msgs : List Msg) : SurfaceContent
  deriving DecidableEq, Repr

/-- The message-related state of `MessageHandler`: the stored message list
(`this.currentMessages`) and the message surface. -/
structure MessageHandlerState where
  currentMessages : List Msg
  surface : SurfaceContent
  deriving DecidableEq, Repr

/-- Embeds `MessageHandler._refreshMessages` with the awaited
`getChatMessages` outcome passed in. The whole body sits in a try/catch, so
the function is total — a failed fetch never escapes: the catch shows the
error notice and leaves `currentMessages` untouched. On success, a
non-empty list is displayed (which stores it in `currentMessages` via
`_displayMessages`), an empty list shows the no-messages notice without
touching `currentMessages`, and with no chat selected only a notice is
shown. -/
def refreshMessages (st : MessageHandlerState) (selectedChat : Option Nat)
    (fetch : Except String (List Msg)) : MessageHandlerState :=
  match selectedChat with
  | none => { st with surface := .text "No chat selected." }
  | some _ =>
      match fetch with
      | .error e =>
          { st with surface := .text ("Error refreshing messages: " ++ e) }
      | .ok msgs =>
          if msgs.isEmpty then
            { st with surface := .text "No messages in this chat yet." }
          else { currentMessages := msgs, surface := .rendered msgs }

/-- C9: when the underlying message fetch fails, the stored message list is
left exactly as it was, and the failure is surfaced as a non-fatal notice
(the handler catches the error and keeps running — `refreshMessages` is a
total function of the fetch outcome, so no failure terminates the flow). -/
theorem c9_refresh_error_keeps_messages (st : MessageHandlerState)
    (chat : Nat) (e : String) :
    (refreshMessages st (some chat) (.error e)).currentMessages =
        st.currentMessages
    ∧ (refreshMessages st (some chat) (.error e)).surface =
        .text ("Error refreshing messages: " ++ e) :=
  ⟨rfl, rfl⟩

/- ## Capture-handler arming (C10) -/

/-- The categories of keypress capture handlers the shortcut handler arms. -/
inductive CaptureCategory where
  | number : CaptureCategory
  | search : CaptureCategory
  | help : CaptureCategory
  | main : CaptureCategory
  deriving DecidableEq, Repr

/-- The screen's keypress listener list (each listener named by an id, with
the category of capture it implements) together with the stored references
`this.currentNumberHandler` and `this.currentSearchHandler`. -/
structure ListenerState where
  listeners : List (Nat × CaptureCategory)
  currentNumberHandler : Option Nat
  currentSearchHandler : Option Nat
  deriving DecidableEq, Repr

/-- `screen.removeListener('keypress', fn)`: remove the (unique) listener
with the given id. -/
def removeListenerById :
    List (Nat × CaptureCategory) → Nat → List (Nat × CaptureCategory)
  | [], _ => []
  | p :: rest, target =>
      if p.1 = target then rest else p :: removeListenerById rest target

/-- The listeners of one category currently registered. -/
def catListeners (st : ListenerState) (cat : CaptureCategory) :
    List (Nat × CaptureCategory) :=
  st.listeners.filter (fun p => p.2 = cat)

/-- Embeds `ShortcutHandler._handleNumberInput`: before arming the new
number-capture handler, any previously armed one (tracked in
`this.currentNumberHandler`) is removed with `removeListener`; then the new
handler is registered and its reference stored. -/
def armNumberHandler (st : ListenerState) (newId : Nat) : ListenerState :=
  let cleared :=
    match st.currentNumberHandler with
    | some prev => removeListenerById st.listeners prev
    | none => st.listeners
  { st with
    listeners := cleared ++ [(newId, .number)]
    currentNumberHandler := some newId }

/-- Embeds the search-capture arming in
`ShortcutHandler._setupPromptModeShortcuts`: same pattern with
`this.currentSearchHandler`. -/
def armSearchHandler (st : ListenerState) (newId : Nat) : ListenerState :=
  let cleared :=
    match st.currentSearchHandler with
    | some prev => removeListenerById st.listeners prev
    | none => st.listeners
  { st with
    listeners := cleared ++ [(newId, .search)]
    currentSearchHandler := some newId }

/-- Removing an id that occurs only in the appended singleton strips exactly
that singleton. -/
theorem removeListenerById_append_fresh (l : List (Nat × CaptureCategory))
    (x : Nat × CaptureCategory) (hfresh : ∀ p ∈ l, p.1 ≠ x.1) :
    removeListenerById (l ++ [x]) x.1 = l := by
  induction l with
  | nil => simp [removeListenerById]
  | cons p rest ih =>
      have hp : p.1 ≠ x.1 := hfresh p (List.mem_cons_self p rest)
      have hrest : ∀ q ∈ rest, q.1 ≠ x.1 :=
        fun q hq => hfresh q (List.mem_cons_of_mem p hq)
      simp only [List.cons_append, removeListenerById, if_neg hp, List.append_eq]
      rw [ih hrest]

/-- C10: starting from a state with no armed number capture and no armed
search capture, arming two numeric-argument captures in a row leaves
exactly one number-capture listener registered (the second one), and
likewise two consecutive search captures leave exactly one search-capture
listener — the first arm registers a handler, the second deregisters it
before registering its own, so no keystroke is delivered to two capture
handlers of the same category. -/
theorem c10_single_capture_handler (st : ListenerState) (id1 id2 : Nat)
    (hnum : catListeners st .number = [])
    (hcurN : st.currentNumberHandler = none)
    (hsea : catListeners st .search = [])
    (hcurS : st.currentSearchHandler = none)
    (hfresh : ∀ p ∈ st.listeners, p.1 ≠ id1) :
    catListeners (armNumberHandler (armNumberHandler st id1) id2) .number =
        [(id2, .number)]
    ∧ (armNumberHandler (armNumberHandler st id1) id2).currentNumberHandler =
        some id2
    ∧ catListeners (armSearchHandler (armSearchHandler st id1) id2) .search =
        [(id2, .search)]
    ∧ (armSearchHandler (armSearchHandler st id1) id2).currentSearchHandler =
        some id2 := by
  have hnum1 : armNumberHandler st id1 =
      { st with
        listeners := st.listeners ++ [(id1, .number)]
        currentNumberHandler := some id1 } := by
    rw [armNumberHandler, hcurN]
  have hnum2 : armNumberHandler (armNumberHandler st id1) id2 =
      { st with
        listeners := st.listeners ++ [(id2, .number)]
        currentNumberHandler := some id2 } := by
    rw [hnum1, armNumberHandler]
    simp only
    rw [removeListenerById_append_fresh st.listeners (id1, .number) hfresh]
  have hsea1 : armSearchHandler st id1 =
      { st with
        listeners := st.listeners ++ [(id1, .search)]
        currentSearchHandler := some id1 } := by
    rw [armSearchHandler, hcurS]
  have hsea2 : armSearchHandler (armSearchHandler st id1) id2 =
      { st with
        listeners := st.listeners ++ [(id2, .search)]
        currentSearchHandler := some id2 } := by
    rw [hsea1, armSearchHandler]
    simp only
    rw [removeListenerById_append_fresh st.listeners (id1, .search) hfresh]
  refine ⟨?_, ?_, ?_, ?_⟩
  · rw [hnum2, catListeners]
    simp only [List.filter_append]
    rw [catListeners] at hnum
    rw [hnum]
    simp [List.filter]
  · rw [hnum2]
  · rw [hsea2, catListeners]
    simp only [List.filter_append]
    rw [catListeners] at hsea
    rw [hsea]
    simp [List.filter]
  · rw [hsea2]

/-- Witness for `c10_single_capture_handler`: one unrelated listener is
registered, no capture is armed, and the two consecutive arms use fresh
handler ids. -/
theorem c10_single_capture_handler_witness :
    catListeners
        (armNumberHandler (armNumberHandler ⟨[(7, .main)], none, none⟩ 1) 2)
        .number = [(2, .number)]
    ∧ (armNumberHandler (armNumberHandler ⟨[(7, .main)], none, none⟩ 1) 2).currentNumberHandler
        = some 2
    ∧ catListeners
        (armSearchHandler (armSearchHandler ⟨[(7, .main)], none, none⟩ 1) 2)
        .search = [(2, .search)]
    ∧ (armSearchHandler (armSearchHandler ⟨[(7, .main)], none, none⟩ 1) 2).currentSearchHandler
        = some 2 :=
  c10_single_capture_handler ⟨[(7, .main)], none, none⟩ 1 2 (by decide)
    (by decide) (by decide) (by decide) (by decide)
